import Mathlib

/-!
Shallow embedding of the cart and order-placement logic of
`src/Frontend/src/pages/Menu.jsx` (restaurant ordering frontend),
together with proofs of the specified cart/order properties.

The cart is the React state `cart : CartLine list`; each handler is
embedded as a pure function from its inputs and the current cart (or
component state) to the next cart (or state).  JavaScript numbers used
as quantities and prices are modelled as integers (`Int`): the code
only ever adds, multiplies and compares them in integral ways for the
properties at stake.
-/

namespace MenuPage

/-- A menu item as fetched from `GET /menu` (fields used by the cart
logic: identity `_id`, `name`, `price`, `category`, `ingredients`). -/
structure MenuItem where
  _id : String
  name : String
  price : Int
  category : String
  ingredients : List String
  deriving DecidableEq, Repr

/-- A cart line: in `Menu.jsx` a cart entry is the menu item spread
together with `quantity`, `removedIngredients` and `specialRequest`
(`{ ...item, quantity, removedIngredients, specialRequest }`). -/
structure CartLine where
  _id : String
  name : String
  price : Int
  category : String
  ingredients : List String
  quantity : Int
  removedIngredients : List String
  specialRequest : String
  deriving DecidableEq, Repr

/-- The object-spread `{ ...item, quantity, removedIngredients, specialRequest }`. -/
def CartLine.ofItem (item : MenuItem) (quantity : Int)
    (removedIngredients : List String) (specialRequest : String) : CartLine :=
  { _id := item._id, name := item.name, price := item.price,
    category := item.category, ingredients := item.ingredients,
    quantity := quantity, removedIngredients := removedIngredients,
    specialRequest := specialRequest }

/-- `addToCart` (Menu.jsx lines 44-63): if `cart.find` locates a line with the
item's `_id`, map over the cart incrementing the quantity of matching lines;
otherwise append a fresh line with quantity 1 and empty customization. -/
def addToCart (item : MenuItem) (cart : List CartLine) : List CartLine :=
  match cart.find? (fun cartItem => cartItem._id == item._id) with
  | some _ =>
      cart.map (fun cartItem =>
        if cartItem._id == item._id then
          { cartItem with quantity := cartItem.quantity + 1 }
        else cartItem)
  | none =>
      cart ++ [CartLine.ofItem item 1 [] ""]

/-- `addCustomizedToCart` (Menu.jsx lines 65-89): builds the customized line
(quantity reset to 1), then `findIndex` by `_id`; if found, positionally
replaces that index via `cart.map((item, index) => ...)`, else appends.
(The JS guard `if (!customizingItem) return` is the non-null precondition;
here the item is always supplied.) -/
def addCustomizedToCart (customizingItem : MenuItem)
    (removedIngredients : List String) (specialRequest : String)
    (cart : List CartLine) : List CartLine :=
  let customizedItem :=
    CartLine.ofItem customizingItem 1 removedIngredients specialRequest
  match cart.findIdx? (fun item => item._id == customizedItem._id) with
  | some existingIndex =>
      cart.mapIdx (fun index item =>
        if index == existingIndex then customizedItem else item)
  | none =>
      cart ++ [customizedItem]

/-- `removeFromCart` (Menu.jsx lines 91-93): keep lines whose `_id` differs. -/
def removeFromCart (itemId : String) (cart : List CartLine) : List CartLine :=
  cart.filter (fun item => item._id != itemId)

/-- `updateQuantity` (Menu.jsx lines 95-99): no-op when `newQuantity < 1`,
otherwise map over the cart replacing the quantity on lines matching `itemId`. -/
def updateQuantity (itemId : String) (newQuantity : Int)
    (cart : List CartLine) : List CartLine :=
  if newQuantity < 1 then cart
  else
    cart.map (fun item =>
      if item._id == itemId then { item with quantity := newQuantity } else item)

/-- `calculateTotal` (Menu.jsx lines 101-103):
`cart.reduce((total, item) => total + item.price * item.quantity, 0)`. -/
def calculateTotal (cart : List CartLine) : Int :=
  cart.foldl (fun total item => total + item.price * item.quantity) 0

/-- One element of `orderData.items` (Menu.jsx lines 122-128): the cart
projection posted to `POST /orders`. -/
structure OrderLine where
  menuItem : String
  quantity : Int
  price : Int
  removedIngredients : List String
  specialRequest : String
  deriving DecidableEq, Repr

/-- The `orderData` body of the `POST /orders` request (lines 121-130). -/
structure OrderData where
  items : List OrderLine
  totalAmount : Int
  deriving DecidableEq, Repr

/-- Construction of `orderData` from the cart (lines 121-130).  The JS
fallbacks `item.removedIngredients || []` and `item.specialRequest || ""`
are the identity here because every embedded cart line carries both fields. -/
def orderDataOfCart (cart : List CartLine) : OrderData :=
  { items := cart.map (fun item =>
      { menuItem := item._id, quantity := item.quantity, price := item.price,
        removedIngredients := item.removedIngredients,
        specialRequest := item.specialRequest }),
    totalAmount := calculateTotal cart }

/-- Outcome of the awaited `api.post("/orders", ...)` call:
`ok` is a non-throwing response carrying `data.success`, `data.orderId`,
`data.message`; `httpError` is a rejection with `error.response` present
(classified by HTTP `status`); `noResponse` is a rejection without
`error.response` (network failure), as well as the synthetic
`throw new Error(...)` taken when `data.success` is false. -/
inductive ApiOutcome where
  | ok (success : Bool) (orderId : String) (message : String)
  | httpError (status : Nat) (message : String)
  | noResponse (message : String)
  deriving DecidableEq, Repr

/-- Whether the outcome is the one success path of `placeOrder`
(a non-throwing response with `data.success` true); every other outcome
lands in the `else`/`catch` branches. -/
def ApiOutcome.isSuccess : ApiOutcome → Bool
  | .ok true _ _ => true
  | _ => false

/-- The component state touched by `placeOrder`: the cart, the fetched menu
(`menuItems`, replaced on the 404 refetch), the token in browser storage,
the last navigation target, and the list of `POST /orders` bodies issued
(so that "no network call" is expressible). -/
structure MenuState where
  cart : List CartLine
  menuItems : List MenuItem
  token : Option String
  nav : Option String
  posts : List OrderData
  deriving DecidableEq, Repr

/-- `placeOrder` (Menu.jsx lines 105-196) as a state transition.
`isAuthenticated` comes from the auth context; `outcome` is what the
`POST /orders` round trip would produce if issued; `menuResp` is what a
`GET /menu` refetch would return (used only in the 404 branch).
Guard order follows the source: unauthenticated → toast + navigate to
/login; empty cart → toast only; otherwise the request is issued and the
response/catch branches run.  Toast calls are not modelled.  In the 400
"unavailable" branch the cart is only pruned by a later user click on the
toast button, not by `placeOrder` itself, so the state is unchanged here. -/
def placeOrder (isAuthenticated : Bool) (outcome : ApiOutcome)
    (menuResp : List MenuItem) (s : MenuState) : MenuState :=
  if !isAuthenticated then { s with nav := some "/login" }
  else if s.cart.length == 0 then s
  else
    let orderData := orderDataOfCart s.cart
    let s1 := { s with posts := s.posts ++ [orderData] }
    match outcome with
    | .ok true orderId _ =>
        { s1 with cart := [], nav := some ("/orders/" ++ orderId) }
    | .ok false _ _ => s1
    | .httpError status _ =>
        if status == 400 then s1
        else if status == 401 then
          { s1 with token := none, nav := some "/login" }
        else if status == 404 then { s1 with menuItems := menuResp }
        else s1
    | .noResponse _ => s1

/-- The cart-mutating user events, for the reachability invariants. -/
inductive CartOp where
  | add (item : MenuItem)
  | customize (item : MenuItem) (removedIngredients : List String)
      (specialRequest : String)
  | update (itemId : String) (newQuantity : Int)
  | remove (itemId : String)
  deriving DecidableEq, Repr

/-- Apply one cart event. -/
def applyOp (op : CartOp) (cart : List CartLine) : List CartLine :=
  match op with
  | .add item => addToCart item cart
  | .customize item removed req => addCustomizedToCart item removed req cart
  | .update itemId q => updateQuantity itemId q cart
  | .remove itemId => removeFromCart itemId cart

/-- Apply a sequence of cart events from left to right. -/
def applyOps (ops : List CartOp) (cart : List CartLine) : List CartLine :=
  ops.foldl (fun c op => applyOp op c) cart

/-! Concrete sample data, used by the witness theorems. -/

/-- A sample menu item. -/
def pizza : MenuItem :=
  { _id := "m1", name := "Pizza", price := 12, category := "Main",
    ingredients := ["cheese", "tomato"] }

/-- Another sample menu item. -/
def cola : MenuItem :=
  { _id := "m2", name := "Cola", price := 3, category := "Drinks",
    ingredients := [] }

/-- A sample one-line cart containing the pizza. -/
def cart0 : List CartLine := [CartLine.ofItem pizza 1 [] ""]

/-- A sample component state with a non-empty cart and a stored token. -/
def sampleState : MenuState :=
  { cart := cart0, menuItems := [pizza, cola], token := some "tok",
    nav := none, posts := [] }

/-! Helper lemmas. -/

/-- The JS positional replacement
`cart.map((item, index) => index === existingIndex ? x : item)`
is `List.set`. -/
theorem mapIdx_ite_eq_set {α : Type} (xs : List α) (i : Nat) (a : α) :
    (xs.mapIdx fun index item => if index = i then a else item) = xs.set i a := by
  apply List.ext_getElem
  · simp
  · intro n h1 h2
    simp only [List.getElem_mapIdx, List.getElem_set]
    by_cases h : n = i
    · simp [h]
    · simp [h, Ne.symm h]

/-- Unfolding of `addCustomizedToCart`: positional replacement at the found
index, or append. -/
theorem addCustomizedToCart_eq (item : MenuItem) (removed : List String)
    (req : String) (cart : List CartLine) :
    addCustomizedToCart item removed req cart =
      match cart.findIdx? (fun x => x._id == item._id) with
      | some i => cart.set i (CartLine.ofItem item 1 removed req)
      | none => cart ++ [CartLine.ofItem item 1 removed req] := by
  cases h : cart.findIdx? (fun x => x._id == item._id) with
  | some i =>
      simp only [addCustomizedToCart, CartLine.ofItem] at h ⊢
      rw [h]
      simp only [beq_iff_eq]
      exact mapIdx_ite_eq_set cart i _
  | none =>
      simp only [addCustomizedToCart, CartLine.ofItem] at h ⊢
      rw [h]

/-! Claim theorems. -/

/-- C1: `add(item)` on a cart containing a line of the item's identity
increments the quantity of that line (leaving everything else unchanged);
on a cart without such a line it appends a new line with quantity 1,
empty removed-ingredients list and empty special request; in particular
adding the same item twice to the empty cart yields one line of
quantity 2. -/
theorem addToCart_merges_by_identity (item : MenuItem) (cart : List CartLine) :
    ((∃ l ∈ cart, l._id = item._id) →
      addToCart item cart = cart.map (fun l =>
        if l._id = item._id then { l with quantity := l.quantity + 1 } else l)) ∧
    ((∀ l ∈ cart, l._id ≠ item._id) →
      addToCart item cart = cart ++ [CartLine.ofItem item 1 [] ""]) ∧
    addToCart item (addToCart item []) = [CartLine.ofItem item 2 [] ""] := by
  refine ⟨?_, ?_, ?_⟩
  · rintro ⟨l, hl, hid⟩
    unfold addToCart
    cases hfind : cart.find? (fun cartItem => cartItem._id == item._id) with
    | some x => simp
    | none =>
        rw [List.find?_eq_none] at hfind
        exact absurd hid (by simpa using hfind l hl)
  · intro hnone
    unfold addToCart
    cases hfind : cart.find? (fun cartItem => cartItem._id == item._id) with
    | some x =>
        have hx := List.find?_some hfind
        have hmem := List.mem_of_find?_eq_some hfind
        exact absurd (by simpa using hx) (hnone x hmem)
    | none => rfl
  · simp [addToCart, CartLine.ofItem]

/-- C1 witness: adding the pizza to a cart already holding one pizza line
yields the single line with quantity 2. -/
theorem addToCart_merges_by_identity_witness :
    addToCart pizza cart0 = [CartLine.ofItem pizza 2 [] ""] :=
  ((addToCart_merges_by_identity pizza cart0).1 (by decide)).trans (by decide)

/-- C2: `customize-and-add(item, removedIngredients, specialRequest)`
replaces the existing line of that identity in place (same cart length,
positional replacement by the customized line with quantity 1) when one
is present, and appends a new line with that customization and quantity 1
when none is present. -/
theorem addCustomizedToCart_replaces_or_appends (item : MenuItem)
    (removed : List String) (req : String) (cart : List CartLine) :
    ((∃ l ∈ cart, l._id = item._id) →
      (addCustomizedToCart item removed req cart).length = cart.length ∧
      ∃ i, ∃ h : i < cart.length,
        (cart.get ⟨i, h⟩)._id = item._id ∧
        addCustomizedToCart item removed req cart =
          cart.set i (CartLine.ofItem item 1 removed req)) ∧
    ((∀ l ∈ cart, l._id ≠ item._id) →
      addCustomizedToCart item removed req cart =
        cart ++ [CartLine.ofItem item 1 removed req]) := by
  rw [addCustomizedToCart_eq]
  constructor
  · rintro ⟨l, hl, hid⟩
    cases hfind : cart.findIdx? (fun x => x._id == item._id) with
    | none =>
        rw [List.findIdx?_eq_none_iff] at hfind
        exact absurd hid (by simpa using hfind l hl)
    | some i =>
        rw [List.findIdx?_eq_some_iff_getElem] at hfind
        obtain ⟨hi, hp, -⟩ := hfind
        exact ⟨by simp, i, hi, by simpa using hp, rfl⟩
  · intro hnone
    cases hfind : cart.findIdx? (fun x => x._id == item._id) with
    | none => rfl
    | some i =>
        rw [List.findIdx?_eq_some_iff_getElem] at hfind
        obtain ⟨hi, hp, -⟩ := hfind
        exact absurd (by simpa using hp) (hnone (cart.get ⟨i, hi⟩) (cart.get_mem i hi))

/-- C2 witness: customizing the pizza when a pizza line is already present
replaces that line in place, keeping the cart at one line. -/
theorem addCustomizedToCart_replaces_or_appends_witness :
    (addCustomizedToCart pizza ["cheese"] "no salt" cart0).length = cart0.length :=
  ((addCustomizedToCart_replaces_or_appends pizza ["cheese"] "no salt" cart0).1
    (by decide)).1

/-- C3: `update-quantity(itemId, newQuantity)` is a no-op when
`newQuantity < 1`; otherwise it replaces the quantity on the line matching
`itemId`, leaving every other field of that line and every other line
unchanged. -/
theorem updateQuantity_guard_and_update (itemId : String) (newQuantity : Int)
    (cart : List CartLine) :
    (newQuantity < 1 → updateQuantity itemId newQuantity cart = cart) ∧
    (1 ≤ newQuantity →
      updateQuantity itemId newQuantity cart = cart.map (fun l =>
        if l._id = itemId then { l with quantity := newQuantity } else l)) := by
  constructor
  · intro h
    simp [updateQuantity, h]
  · intro h
    have h1 : ¬newQuantity < 1 := not_lt.mpr h
    simp [updateQuantity, h1]

/-- C3 witness: `update-quantity` with value 0 on the one-line sample cart
leaves the cart unchanged. -/
theorem updateQuantity_guard_and_update_witness :
    updateQuantity "m1" 0 cart0 = cart0 :=
  (updateQuantity_guard_and_update "m1" 0 cart0).1 (by decide)

/-- `reduce` with a running accumulator versus the mapped sum. -/
theorem foldl_price_mul (cart : List CartLine) (a : Int) :
    cart.foldl (fun total item => total + item.price * item.quantity) a =
      a + (cart.map (fun l => l.price * l.quantity)).sum := by
  induction cart generalizing a with
  | nil => simp
  | cons x xs ih => simp [List.foldl_cons, ih]; ring

/-- C4: `total()` is the sum over all cart lines of price × quantity, and
is 0 on the empty cart. -/
theorem calculateTotal_eq_sum (cart : List CartLine) :
    calculateTotal cart = (cart.map (fun l => l.price * l.quantity)).sum ∧
    calculateTotal [] = 0 := by
  refine ⟨?_, rfl⟩
  simpa using foldl_price_mul cart 0

/-- C5: `submit-order` fails locally when the user is unauthenticated or
the cart is empty: no `POST /orders` is issued and the cart is unchanged,
for every cart when unauthenticated and for the empty cart in every
authentication state. -/
theorem placeOrder_local_failure_no_post (isAuthenticated : Bool)
    (outcome : ApiOutcome) (menuResp : List MenuItem) (s : MenuState) :
    (isAuthenticated = false →
      (placeOrder isAuthenticated outcome menuResp s).posts = s.posts ∧
      (placeOrder isAuthenticated outcome menuResp s).cart = s.cart) ∧
    (s.cart = [] →
      (placeOrder isAuthenticated outcome menuResp s).posts = s.posts ∧
      (placeOrder isAuthenticated outcome menuResp s).cart = s.cart) := by
  constructor
  · rintro rfl
    simp [placeOrder]
  · intro h
    cases isAuthenticated with
    | false => simp [placeOrder]
    | true => simp [placeOrder, h]

/-- C5 witness: an unauthenticated submission on the sample state issues no
request and leaves the cart alone. -/
theorem placeOrder_local_failure_no_post_witness :
    (placeOrder false (ApiOutcome.ok true "o1" "") [] sampleState).posts =
      sampleState.posts ∧
    (placeOrder false (ApiOutcome.ok true "o1" "") [] sampleState).cart =
      sampleState.cart :=
  (placeOrder_local_failure_no_post false (ApiOutcome.ok true "o1" "") []
    sampleState).1 rfl

/-- C6: for a non-empty cart and an authenticated user, a successful
response clears the cart and navigates to the order-detail view of the
returned `orderId`. -/
theorem placeOrder_success_clears_cart_and_navigates (orderId message : String)
    (menuResp : List MenuItem) (s : MenuState) (h : s.cart ≠ []) :
    (placeOrder true (ApiOutcome.ok true orderId message) menuResp s).cart = [] ∧
    (placeOrder true (ApiOutcome.ok true orderId message) menuResp s).nav =
      some ("/orders/" ++ orderId) := by
  have h0 : (s.cart.length == 0) = false := by
    simp [List.length_eq_zero, h]
  simp [placeOrder, h0]

/-- C6 witness: a successful submission on the sample state empties the cart
and navigates to /orders/o1. -/
theorem placeOrder_success_clears_cart_and_navigates_witness :
    (placeOrder true (ApiOutcome.ok true "o1" "") [] sampleState).cart = [] ∧
    (placeOrder true (ApiOutcome.ok true "o1" "") [] sampleState).nav =
      some ("/orders/" ++ "o1") :=
  placeOrder_success_clears_cart_and_navigates "o1" "" [] sampleState (by decide)

/-- C7: for a non-empty cart and an authenticated user, an HTTP 401
rejection removes the stored token and redirects to the login view. -/
theorem placeOrder_401_clears_token_and_redirects (message : String)
    (menuResp : List MenuItem) (s : MenuState) (h : s.cart ≠ []) :
    (placeOrder true (ApiOutcome.httpError 401 message) menuResp s).token = none ∧
    (placeOrder true (ApiOutcome.httpError 401 message) menuResp s).nav =
      some "/login" := by
  have h0 : (s.cart.length == 0) = false := by
    simp [List.length_eq_zero, h]
  simp [placeOrder, h0]

/-- C7 witness: a 401 on the sample state drops the token and navigates to
/login. -/
theorem placeOrder_401_clears_token_and_redirects_witness :
    (placeOrder true (ApiOutcome.httpError 401 "expired") [] sampleState).token =
      none ∧
    (placeOrder true (ApiOutcome.httpError 401 "expired") [] sampleState).nav =
      some "/login" :=
  placeOrder_401_clears_token_and_redirects "expired" [] sampleState (by decide)

/-- C8: for a non-empty cart and an authenticated user, every failing
outcome (HTTP 400, 401, 404 or any other error status, a network failure,
or a response without `success`) leaves the cart exactly as it started;
only a successful submission changes the cart. -/
theorem placeOrder_failure_preserves_cart (outcome : ApiOutcome)
    (menuResp : List MenuItem) (s : MenuState) (h : s.cart ≠ [])
    (hfail : outcome.isSuccess = false) :
    (placeOrder true outcome menuResp s).cart = s.cart := by
  have h0 : (s.cart.length == 0) = false := by
    simp [List.length_eq_zero, h]
  cases outcome with
  | ok success orderId message =>
      cases success with
      | true => simp [ApiOutcome.isSuccess] at hfail
      | false => simp [placeOrder, h0]
  | httpError status message =>
      simp only [placeOrder, Bool.not_true, Bool.false_eq_true, if_false, h0]
      split
      · rfl
      · split
        · rfl
        · split <;> rfl
  | noResponse message => simp [placeOrder, h0]

/-- C8 witness: a 500 rejection on the sample state leaves the cart as it
started. -/
theorem placeOrder_failure_preserves_cart_witness :
    (placeOrder true (ApiOutcome.httpError 500 "boom") [] sampleState).cart =
      sampleState.cart :=
  placeOrder_failure_preserves_cart (ApiOutcome.httpError 500 "boom") []
    sampleState (by decide) (by decide)

/-! Invariant helper lemmas. -/

/-- `add` keeps every quantity at least 1. -/
theorem addToCart_quantity_ge_one (item : MenuItem) (cart : List CartLine)
    (hinv : ∀ l ∈ cart, 1 ≤ l.quantity) :
    ∀ l ∈ addToCart item cart, 1 ≤ l.quantity := by
  unfold addToCart
  cases cart.find? (fun cartItem => cartItem._id == item._id) with
  | some x =>
      intro l hl
      obtain ⟨y, hy, rfl⟩ := List.mem_map.mp hl
      by_cases hid : y._id = item._id
      · have := hinv y hy
        simp only [hid, beq_self_eq_true, if_true]
        omega
      · simpa [hid] using hinv y hy
  | none =>
      intro l hl
      rcases List.mem_append.mp hl with h1 | h1
      · exact hinv l h1
      · rw [List.mem_singleton] at h1
        subst h1
        exact le_refl 1

/-- `customize-and-add` keeps every quantity at least 1. -/
theorem addCustomizedToCart_quantity_ge_one (item : MenuItem)
    (removed : List String) (req : String) (cart : List CartLine)
    (hinv : ∀ l ∈ cart, 1 ≤ l.quantity) :
    ∀ l ∈ addCustomizedToCart item removed req cart, 1 ≤ l.quantity := by
  rw [addCustomizedToCart_eq]
  cases cart.findIdx? (fun x => x._id == item._id) with
  | some i =>
      intro l hl
      rcases List.mem_or_eq_of_mem_set hl with h1 | h1
      · exact hinv l h1
      · subst h1
        exact le_refl 1
  | none =>
      intro l hl
      rcases List.mem_append.mp hl with h1 | h1
      · exact hinv l h1
      · rw [List.mem_singleton] at h1
        subst h1
        exact le_refl 1

/-- `update-quantity` keeps every quantity at least 1. -/
theorem updateQuantity_quantity_ge_one (itemId : String) (q : Int)
    (cart : List CartLine) (hinv : ∀ l ∈ cart, 1 ≤ l.quantity) :
    ∀ l ∈ updateQuantity itemId q cart, 1 ≤ l.quantity := by
  unfold updateQuantity
  by_cases hq : q < 1
  · simpa [hq] using hinv
  · simp only [hq, if_false]
    intro l hl
    obtain ⟨y, hy, rfl⟩ := List.mem_map.mp hl
    by_cases hid : y._id = itemId
    · simp only [hid, beq_self_eq_true, if_true]
      omega
    · simpa [hid] using hinv y hy

/-- `remove` keeps every quantity at least 1. -/
theorem removeFromCart_quantity_ge_one (itemId : String) (cart : List CartLine)
    (hinv : ∀ l ∈ cart, 1 ≤ l.quantity) :
    ∀ l ∈ removeFromCart itemId cart, 1 ≤ l.quantity := fun l hl =>
  hinv l (List.mem_of_mem_filter hl)

/-- Every single cart event preserves the quantity lower bound. -/
theorem applyOp_quantity_ge_one (op : CartOp) (cart : List CartLine)
    (hinv : ∀ l ∈ cart, 1 ≤ l.quantity) :
    ∀ l ∈ applyOp op cart, 1 ≤ l.quantity := by
  cases op with
  | add item => exact addToCart_quantity_ge_one item cart hinv
  | customize item removed req =>
      exact addCustomizedToCart_quantity_ge_one item removed req cart hinv
  | update itemId q => exact updateQuantity_quantity_ge_one itemId q cart hinv
  | remove itemId => exact removeFromCart_quantity_ge_one itemId cart hinv

/-- Event sequences preserve the quantity lower bound. -/
theorem applyOps_quantity_ge_one (ops : List CartOp) :
    ∀ (cart : List CartLine), (∀ l ∈ cart, 1 ≤ l.quantity) →
      ∀ l ∈ applyOps ops cart, 1 ≤ l.quantity := by
  induction ops with
  | nil => exact fun cart hinv => hinv
  | cons op ops ih =>
      intro cart hinv
      exact ih (applyOp op cart) (applyOp_quantity_ge_one op cart hinv)

/-- C9: every cart line's quantity is an integer ≥ 1: each operation
(add, customize-and-add, update-quantity, remove) preserves the bound, and
every cart reachable from the empty cart satisfies it. -/
theorem cart_quantities_ge_one :
    (∀ (op : CartOp) (cart : List CartLine),
      (∀ l ∈ cart, 1 ≤ l.quantity) → ∀ l ∈ applyOp op cart, 1 ≤ l.quantity) ∧
    (∀ ops : List CartOp, ∀ l ∈ applyOps ops [], 1 ≤ l.quantity) :=
  ⟨applyOp_quantity_ge_one,
   fun ops => applyOps_quantity_ge_one ops [] (fun l hl => absurd hl (List.not_mem_nil l))⟩

/-- C9 witness: the line reached by adding the pizza twice from the empty
cart has quantity at least 1. -/
theorem cart_quantities_ge_one_witness :
    CartLine.ofItem pizza 2 [] "" ∈ applyOps [CartOp.add pizza, CartOp.add pizza] [] ∧
    1 ≤ (CartLine.ofItem pizza 2 [] "").quantity :=
  ⟨by decide,
   cart_quantities_ge_one.2 [CartOp.add pizza, CartOp.add pizza]
     (CartLine.ofItem pizza 2 [] "") (by decide)⟩

/-- Replacing an element by one with the same image under `f` keeps the
mapped list unchanged. -/
theorem map_set_self {α β : Type} (l : List α) (i : Nat) (a : α) (f : α → β)
    (hi : i < l.length) (ha : f a = f (l.get ⟨i, hi⟩)) :
    (l.set i a).map f = l.map f := by
  apply List.ext_getElem
  · simp
  · intro n h1 h2
    rw [List.getElem_map, List.getElem_set, List.getElem_map]
    split
    · next heq => subst heq; exact ha
    · rfl

/-- Mapping by a line-wise transformation that fixes `_id` fixes the id
list. -/
theorem map_ids_of_id_preserving (cart : List CartLine)
    (f : CartLine → CartLine) (hf : ∀ l, (f l)._id = l._id) :
    (cart.map f).map CartLine._id = cart.map CartLine._id := by
  rw [List.map_map]
  exact List.map_congr_left (fun a _ => hf a)

/-- `add` preserves distinctness of line ids. -/
theorem addToCart_ids_nodup (item : MenuItem) (cart : List CartLine)
    (hinv : (cart.map CartLine._id).Nodup) :
    ((addToCart item cart).map CartLine._id).Nodup := by
  unfold addToCart
  cases hfind : cart.find? (fun cartItem => cartItem._id == item._id) with
  | some x =>
      rw [map_ids_of_id_preserving]
      · exact hinv
      · intro l
        by_cases hid : l._id = item._id <;> simp [hid]
  | none =>
      rw [List.map_append]
      rw [List.nodup_append]
      refine ⟨hinv, List.nodup_singleton _, ?_⟩
      intro a ha hb
      simp only [List.map_cons, List.map_nil, List.mem_singleton] at hb
      obtain ⟨y, hy, rfl⟩ := List.mem_map.mp ha
      rw [List.find?_eq_none] at hfind
      exact absurd (by simpa [CartLine.ofItem] using hb)
        (by simpa using hfind y hy)

/-- `customize-and-add` preserves distinctness of line ids. -/
theorem addCustomizedToCart_ids_nodup (item : MenuItem)
    (removed : List String) (req : String) (cart : List CartLine)
    (hinv : (cart.map CartLine._id).Nodup) :
    ((addCustomizedToCart item removed req cart).map CartLine._id).Nodup := by
  rw [addCustomizedToCart_eq]
  cases hfind : cart.findIdx? (fun x => x._id == item._id) with
  | some i =>
      rw [List.findIdx?_eq_some_iff_getElem] at hfind
      obtain ⟨hi, hp, -⟩ := hfind
      have hid : cart[i]._id = item._id := by simpa using hp
      rw [map_set_self cart i _ CartLine._id hi
        (by simp [CartLine.ofItem, List.get_eq_getElem, hid])]
      exact hinv
  | none =>
      rw [List.map_append]
      rw [List.nodup_append]
      refine ⟨hinv, List.nodup_singleton _, ?_⟩
      intro a ha hb
      simp only [List.map_cons, List.map_nil, List.mem_singleton] at hb
      obtain ⟨y, hy, rfl⟩ := List.mem_map.mp ha
      rw [List.findIdx?_eq_none_iff] at hfind
      exact absurd (by simpa [CartLine.ofItem] using hb)
        (by simpa using hfind y hy)

/-- `update-quantity` preserves distinctness of line ids. -/
theorem updateQuantity_ids_nodup (itemId : String) (q : Int)
    (cart : List CartLine) (hinv : (cart.map CartLine._id).Nodup) :
    ((updateQuantity itemId q cart).map CartLine._id).Nodup := by
  unfold updateQuantity
  by_cases hq : q < 1
  · simpa [hq] using hinv
  · simp only [hq, if_false]
    rw [map_ids_of_id_preserving]
    · exact hinv
    · intro l
      by_cases hid : l._id = itemId <;> simp [hid]

/-- `remove` preserves distinctness of line ids. -/
theorem removeFromCart_ids_nodup (itemId : String) (cart : List CartLine)
    (hinv : (cart.map CartLine._id).Nodup) :
    ((removeFromCart itemId cart).map CartLine._id).Nodup :=
  List.Nodup.sublist (List.Sublist.map CartLine._id (List.filter_sublist cart)) hinv

/-- Every single cart event preserves distinctness of line ids. -/
theorem applyOp_ids_nodup (op : CartOp) (cart : List CartLine)
    (hinv : (cart.map CartLine._id).Nodup) :
    ((applyOp op cart).map CartLine._id).Nodup := by
  cases op with
  | add item => exact addToCart_ids_nodup item cart hinv
  | customize item removed req =>
      exact addCustomizedToCart_ids_nodup item removed req cart hinv
  | update itemId q => exact updateQuantity_ids_nodup itemId q cart hinv
  | remove itemId => exact removeFromCart_ids_nodup itemId cart hinv

/-- Event sequences preserve distinctness of line ids. -/
theorem applyOps_ids_nodup (ops : List CartOp) :
    ∀ (cart : List CartLine), (cart.map CartLine._id).Nodup →
      ((applyOps ops cart).map CartLine._id).Nodup := by
  induction ops with
  | nil => exact fun cart hinv => hinv
  | cons op ops ih =>
      intro cart hinv
      exact ih (applyOp op cart) (applyOp_ids_nodup op cart hinv)

/-- C10: the cart never holds two lines with the same `_id`: each
operation (add, customize-and-add, update-quantity, remove) preserves
pairwise distinctness of line identities, and every cart reachable from
the empty cart has pairwise distinct line identities. -/
theorem cart_ids_nodup :
    (∀ (op : CartOp) (cart : List CartLine),
      (cart.map CartLine._id).Nodup → ((applyOp op cart).map CartLine._id).Nodup) ∧
    (∀ ops : List CartOp, ((applyOps ops []).map CartLine._id).Nodup) :=
  ⟨applyOp_ids_nodup, fun ops => applyOps_ids_nodup ops [] List.nodup_nil⟩

/-- C10 witness: after adding pizza, customizing pizza and adding cola to
the sample cart, the ids are still pairwise distinct. -/
theorem cart_ids_nodup_witness :
    (cart0.map CartLine._id).Nodup ∧
    ((applyOp (CartOp.add cola) cart0).map CartLine._id).Nodup :=
  ⟨by decide, cart_ids_nodup.1 (CartOp.add cola) cart0 (by decide)⟩

end MenuPage
